import Mathlib

set_option maxHeartbeats 1000000

namespace KB

/-- Shallow embedding of the JavaScript values the pipeline manipulates.
Objects are insertion-ordered key/value lists (JS object key order), arrays are
lists, and `undefined` models the JavaScript value `undefined`, which can appear in
an object field after an unvalidated reconciliation write (`JSON.parse` output
never contains it).  Numbers are modelled as integers; the correlation `_index`
values the pipeline compares are integers. -/
inductive Json where
  | null : Json
  | undefined : Json
  | bool : Bool → Json
  | num : Int → Json
  | str : String → Json
  | arr : List Json → Json
  | obj : List (String × Json) → Json

/-- First-match association lookup: JS property read on an object
(JS objects have unique keys, so first match is the match). -/
def lookupField : List (String × Json) → String → Option Json
  | [], _ => none
  | (k', v) :: rest, k => if k' = k then some v else lookupField rest k

/-- JS property access `j.k`: `none` models `undefined` (missing property or
non-object receiver). -/
def getField : Json → String → Option Json
  | .obj kvs, k => lookupField kvs k
  | _, _ => none

/-- JS property access with `undefined` made explicit as a `Json` value,
as it is when assigned into another object's field. -/
def getFieldU (j : Json) (k : String) : Json :=
  (getField j k).getD .undefined

/-- The `typeof x === 'string'` test of `findProcessableItems`. -/
def isStrVal : Json → Bool
  | .str _ => true
  | _ => false

/-- The test `typeof x === 'string'` applied to a property read. -/
def isStrOpt : Option Json → Bool
  | some (.str _) => true
  | _ => false

/-- The record predicate of `findProcessableItems`
(`src/unnamed/part_001`, also `src/services/geminiService.ts`):
a non-array object whose `name` and `description` properties are strings. -/
def isRecord : Json → Bool
  | .obj kvs => isStrOpt (lookupField kvs "name") && isStrOpt (lookupField kvs "description")
  | _ => false

mutual
/-- `findProcessableItems` (part_001 lines 78-88): arrays recurse into each
element in index order; non-null objects are first tested against the record
predicate and collected if it holds, then all property values are recursed
into; scalars terminate.  A collected node is identified by its path (list of
child positions) from the root, modelling the JS object reference. -/
def findPaths : Json → List (List Nat)
  | .arr xs => findPathsArr 0 xs
  | .obj kvs =>
      (if isRecord (.obj kvs) then [[]] else []) ++ findPathsObj 0 kvs
  | _ => []

/-- Array elements of `findProcessableItems`, visited in index order. -/
def findPathsArr : Nat → List Json → List (List Nat)
  | _, [] => []
  | i, x :: xs => (findPaths x).map (i :: ·) ++ findPathsArr (i + 1) xs

/-- Object property values of `findProcessableItems`, visited in insertion
order (`Object.values`). -/
def findPathsObj : Nat → List (String × Json) → List (List Nat)
  | _, [] => []
  | i, kv :: kvs => (findPaths kv.2).map (i :: ·) ++ findPathsObj (i + 1) kvs
end

/-- Reading the node a path points at. -/
def getAt : List Nat → Json → Option Json
  | [], j => some j
  | i :: p, .arr xs =>
      match xs[i]? with
      | some x => getAt p x
      | none => none
  | i :: p, .obj kvs =>
      match kvs[i]? with
      | some kv => getAt p kv.2
      | none => none
  | _ :: _, _ => none

/-- Replace the element at a position of a list, identity when out of range. -/
def updateNth (f : α → α) : Nat → List α → List α
  | _, [] => []
  | 0, x :: xs => f x :: xs
  | n + 1, x :: xs => x :: updateNth f n xs

/-- Apply `f` to the node a path points at (the JS in-place mutation through an
object reference, expressed functionally); identity when the path is dead. -/
def updateAt (f : Json → Json) : List Nat → Json → Json
  | [], j => f j
  | i :: p, .arr xs => .arr (updateNth (updateAt f p) i xs)
  | i :: p, .obj kvs => .obj (updateNth (fun kv => (kv.1, updateAt f p kv.2)) i kvs)
  | _ :: _, j => j

/-- JS property assignment `obj[k] = v`: overwrite the (unique) existing key in
place, append the key otherwise. -/
def setField : List (String × Json) → String → Json → List (String × Json)
  | [], k, v => [(k, v)]
  | (k', v') :: rest, k, v =>
      if k' = k then (k, v) :: rest else (k', v') :: setField rest k v

/-- JS property assignment on a value known to be an object (the reconciliation
targets are always the walker's record objects). -/
def setObjField (j : Json) (k : String) (v : Json) : Json :=
  match j with
  | .obj kvs => .obj (setField kvs k v)
  | _ => j

mutual
/-- The deep clone `JSON.parse(JSON.stringify(originalData))` of
`processJsonKnowledgeBase`: `undefined`-valued object fields are dropped and
`undefined` array elements become `null` (JS `JSON.stringify` semantics).  A
top-level `undefined` would make `JSON.parse` throw in JS; inputs come from
`JSON.parse` in the UI and never contain it, so it is mapped to itself. -/
def jsonClone : Json → Json
  | .arr xs => .arr (cloneArr xs)
  | .obj kvs => .obj (cloneObj kvs)
  | j => j

/-- Array elements under `JSON.stringify`: `undefined` becomes `null`. -/
def cloneArr : List Json → List Json
  | [] => []
  | .undefined :: xs => .null :: cloneArr xs
  | x :: xs => jsonClone x :: cloneArr xs

/-- Object fields under `JSON.stringify`: `undefined`-valued fields dropped. -/
def cloneObj : List (String × Json) → List (String × Json)
  | [] => []
  | (_, .undefined) :: kvs => cloneObj kvs
  | (k, v) :: kvs => (k, jsonClone v) :: cloneObj kvs
end

mutual
/-- A value free of the JS `undefined`; every `JSON.parse` output is. -/
def noUndefined : Json → Bool
  | .undefined => false
  | .arr xs => noUndefinedArr xs
  | .obj kvs => noUndefinedObj kvs
  | _ => true

/-- All array elements free of `undefined`. -/
def noUndefinedArr : List Json → Bool
  | [] => true
  | x :: xs => noUndefined x && noUndefinedArr xs

/-- All object field values free of `undefined`. -/
def noUndefinedObj : List (String × Json) → Bool
  | [] => true
  | kv :: kvs => noUndefined kv.2 && noUndefinedObj kvs
end

/-- The string stored at field `k` of the node a path points at, if any.
Used to observe individual record fields of concrete documents. -/
def strAt (j : Json) (p : List Nat) (k : String) : Option String :=
  match getField ((getAt p j).getD .undefined) k with
  | some (.str s) => some s
  | _ => none

/-- Substring test on character lists (the JS `String.prototype.includes`). -/
def listContainsSub (pat : List Char) : List Char → Bool
  | [] => pat.isEmpty
  | c :: rest => List.isPrefixOf pat (c :: rest) || listContainsSub pat rest

/-- The JS `msg.includes(pat)`. -/
def containsSub (msg pat : String) : Bool :=
  listContainsSub pat.toList msg.toList

/-- The error-message rewrite of `processBatch` (part_001 lines 69-75): an
error whose message contains `429` is rethrown as `RATE_LIMIT`, every other
error is rethrown unchanged. -/
def convMsg (msg : String) : String :=
  if containsSub msg "429" then "RATE_LIMIT" else msg

/-- The orchestrator's rate-limit test (part_001 line 159):
`e.message === "RATE_LIMIT" || e.message.includes("429")`. -/
def isRateLimit (msg : String) : Bool :=
  msg = "RATE_LIMIT" || containsSub msg "429"

/-- One remote interaction of `processBatch`, abstracted at the point where
the response text has been parsed: either a parsed JSON value, or a failure
carrying the thrown error's message (API errors, the empty-response error and
`JSON.parse` errors alike). -/
inductive RemoteOutcome where
  | ok : Json → RemoteOutcome
  | fail : String → RemoteOutcome

/-- `Array.isArray(parsed) ? parsed : [parsed]` of `processBatch`. -/
def toResults : Json → List Json
  | .arr xs => xs
  | j => [j]

/-- `processBatch` (part_001 lines 44-76) given the remote interaction's
outcome: a successful parse is normalised to an array of result entries; a
failure is rethrown with its message rewritten by the 429 check. -/
def processBatchM : RemoteOutcome → Except String (List Json)
  | .ok v => .ok (toResults v)
  | .fail msg => .error (convMsg msg)

/-- Reconciliation of one result entry (part_001 lines 147-152):
if `result._index` is a number that indexes an existing element of the batch,
unconditionally assign `result.name` and `result.description` onto that record
(no string validation — missing properties assign `undefined`); otherwise the
entry is ignored. -/
def reconcileOne (batch : List (List Nat)) (doc : Json) (r : Json) : Json :=
  match getField r "_index" with
  | some (.num k) =>
      if 0 ≤ k then
        match batch[k.toNat]? with
        | some p =>
            updateAt
              (fun node =>
                setObjField (setObjField node "name" (getFieldU r "name"))
                  "description" (getFieldU r "description"))
              p doc
        | none => doc
      else doc
  | _ => doc

/-- The `results.forEach` reconciliation pass.  Reading `._index` on a `null`
(or `undefined`) entry throws a `TypeError` in JS, aborting the pass inside the
surrounding `try` with the earlier entries already applied; the error value
carries the partially reconciled document. -/
def reconcileE (batch : List (List Nat)) : Json → List Json → Except Json Json
  | doc, [] => .ok doc
  | doc, r :: rs =>
      match r with
      | .null => .error doc
      | .undefined => .error doc
      | _ => reconcileE batch (reconcileOne batch doc r) rs

/-- The reconciliation pass on entries that raise no `TypeError`. -/
def reconcile (batch : List (List Nat)) (doc : Json) (rs : List Json) : Json :=
  rs.foldl (reconcileOne batch) doc

/-- The orchestrator's mutable state during a run: the processed document and
the counters, plus the observable effect trace (remote calls made, `delay`
waits, progress callbacks).  -/
structure RunState where
  doc : Json
  success : Nat
  failed : Nat
  calls : Nat
  delays : List Nat
  progress : List (Nat × Nat)

/-- Record an `await delay(ms)`. -/
def addDelay (st : RunState) (ms : Nat) : RunState :=
  { st with delays := st.delays ++ [ms] }

/-- The batch payload (part_001 lines 137-141): one entry per record carrying
the batch-local correlation index and the record's current `name` and
`description` values. -/
def mkPayload (doc : Json) : Nat → List (List Nat) → List Json
  | _, [] => []
  | idx, p :: rest =>
      let node := (getAt p doc).getD .undefined
      .obj [("_index", .num idx), ("name", getFieldU node "name"),
            ("description", getFieldU node "description")]
        :: mkPayload doc (idx + 1) rest

/-- One iteration of the retry loop's `try` block (part_001 lines 145-167):
the inter-batch pacing delay (every attempt of every batch after the first),
the remote call, and on success the reconciliation pass and success counting.
Returns the new state and `none` on success, or `some isRL` when the attempt
failed with (`isRL`) the orchestrator's rate-limit classification of the
caught error. -/
def attemptOnce (oracle : Nat → List Json → RemoteOutcome) (i : Nat)
    (batch : List (List Nat)) (payload : List Json) (st : RunState) :
    RunState × Option Bool :=
  let st1 := if 0 < i then addDelay st 2000 else st
  let out := oracle st1.calls payload
  let st2 := { st1 with calls := st1.calls + 1 }
  match processBatchM out with
  | .error msg => (st2, some (isRateLimit msg))
  | .ok results =>
      match reconcileE batch st2.doc results with
      | .ok doc1 =>
          ({ st2 with doc := doc1, success := st2.success + batch.length }, none)
      | .error docP => ({ st2 with doc := docP }, some false)

/-- The per-batch retry loop `while (retries > 0 && !batchSuccess)`
(part_001 lines 143-171), with `retries` as the recursion fuel.  On failure the
budget is decremented; at zero the batch soft-fails (`failedCount += 3`-style
record counting, no rethrow); otherwise the backoff wait
`isRateLimit ? 5000 * (4 - retries) : 2000` precedes the re-attempt. -/
def attemptLoop (oracle : Nat → List Json → RemoteOutcome) (i : Nat)
    (batch : List (List Nat)) (payload : List Json) :
    Nat → RunState → RunState
  | 0, st => st
  | r + 1, st =>
      match attemptOnce oracle i batch payload st with
      | (st1, none) => st1
      | (st1, some isRL) =>
          if r = 0 then { st1 with failed := st1.failed + batch.length }
          else
            attemptLoop oracle i batch payload r
              (addDelay st1 (if isRL then 5000 * (4 - r) else 2000))

/-- `const BATCH_SIZE = 3` (part_001 line 127). -/
def BATCH_SIZE : Nat := 3

/-- The batch loop `for (let i = 0; i < total; i += BATCH_SIZE)`
(part_001 lines 134-176).  The fuel argument only bounds the iteration count;
`runKB` passes `total`, which always suffices since `i` advances by 3. -/
def runLoop (oracle : Nat → List Json → RemoteOutcome)
    (paths : List (List Nat)) (total : Nat) :
    Nat → Nat → RunState → RunState
  | 0, _, st => st
  | fuel + 1, i, st =>
      if i < total then
        let batch := (paths.drop i).take BATCH_SIZE
        let payload := mkPayload st.doc 0 batch
        let st1 := attemptLoop oracle i batch payload 3 st
        let st2 :=
          { st1 with progress := st1.progress ++ [(min (i + BATCH_SIZE) total, total)] }
        runLoop oracle paths total fuel (i + BATCH_SIZE) st2
      else st

/-- The `{total, success, failed}` statistics of `ProcessResult`. -/
structure Stats where
  total : Nat
  success : Nat
  failed : Nat
deriving DecidableEq

/-- The observable outcome of `processJsonKnowledgeBase`: the returned
processed document and statistics, the effect trace, and `callerDoc`, the
value the caller's document binding holds after the run — the source clones
the input on entry (`JSON.parse(JSON.stringify(originalData))`) and every
reconciliation write targets the clone's nodes, so the argument is unchanged. -/
structure RunResult where
  data : Json
  stats : Stats
  calls : Nat
  delays : List Nat
  progress : List (Nat × Nat)
  callerDoc : Json

/-- `processJsonKnowledgeBase` (part_001 lines 104-186): clone the input,
discover the records, return immediately on zero records, otherwise drive
every batch through the retry loop and return the processed clone with the
accumulated statistics.  The remote dependency is abstracted as an oracle
giving the outcome of each successive `processBatch` interaction. -/
def runKB (doc : Json) (oracle : Nat → List Json → RemoteOutcome) : RunResult :=
  let dataCopy := jsonClone doc
  let paths := findPaths dataCopy
  let total := paths.length
  if total = 0 then
    { data := dataCopy, stats := ⟨0, 0, 0⟩, calls := 0, delays := [],
      progress := [], callerDoc := doc }
  else
    let st := runLoop oracle paths total total 0 ⟨dataCopy, 0, 0, 0, [], []⟩
    { data := st.doc, stats := ⟨total, st.success, st.failed⟩,
      calls := st.calls, delays := st.delays, progress := st.progress,
      callerDoc := doc }

/-- The batching the loop's slicing induces, generalised over the batch size
(the source fixes `BATCH_SIZE = 3`): batch `j` is
`itemsToProcess.slice(j*b, j*b + b)`, i.e. successive windows of width `b`.
Meaningful for `b ≥ 1`, matching the Batcher contract. -/
def partitionChunks (b : Nat) (l : List α) : List (List α) :=
  match l with
  | [] => []
  | x :: xs => (x :: xs.take (b - 1)) :: partitionChunks b (xs.drop (b - 1))
termination_by l.length
decreasing_by simp [List.length_drop]; omega

/-! ### Traversal lemmas -/

theorem mem_findPathsArr :
    ∀ (js : List Json) (k : Nat) (q : List Nat),
      q ∈ findPathsArr k js ↔
        ∃ i p, q = (k + i) :: p ∧ ∃ x, js[i]? = some x ∧ p ∈ findPaths x := by
  intro js
  induction js with
  | nil => intro k q; simp [findPathsArr]
  | cons x js ih =>
      intro k q
      simp only [findPathsArr, List.mem_append, List.mem_map, ih]
      constructor
      · rintro (⟨p, hp, rfl⟩ | ⟨i, p, rfl, y, hy, hp⟩)
        · exact ⟨0, p, by simp, x, by simp, hp⟩
        · exact ⟨i + 1, p, by rw [Nat.add_assoc, Nat.add_comm 1 i], y,
            by simpa using hy, hp⟩
      · rintro ⟨i, p, hq, y, hy, hp⟩
        cases i with
        | zero =>
            left
            simp only [List.getElem?_cons_zero, Option.some.injEq] at hy
            exact ⟨p, hy ▸ hp, by simpa using hq.symm⟩
        | succ i =>
            right
            refine ⟨i, p, ?_, y, by simpa using hy, hp⟩
            simpa [Nat.add_assoc, Nat.add_comm 1 i] using hq

theorem mem_findPathsObj :
    ∀ (kvs : List (String × Json)) (k : Nat) (q : List Nat),
      q ∈ findPathsObj k kvs ↔
        ∃ i p, q = (k + i) :: p ∧ ∃ kv, kvs[i]? = some kv ∧ p ∈ findPaths kv.2 := by
  intro kvs
  induction kvs with
  | nil => intro k q; simp [findPathsObj]
  | cons kv kvs ih =>
      intro k q
      simp only [findPathsObj, List.mem_append, List.mem_map, ih]
      constructor
      · rintro (⟨p, hp, rfl⟩ | ⟨i, p, rfl, kv', hkv, hp⟩)
        · exact ⟨0, p, by simp, kv, by simp, hp⟩
        · exact ⟨i + 1, p, by rw [Nat.add_assoc, Nat.add_comm 1 i], kv',
            by simpa using hkv, hp⟩
      · rintro ⟨i, p, hq, kv', hkv, hp⟩
        cases i with
        | zero =>
            left
            simp only [List.getElem?_cons_zero, Option.some.injEq] at hkv
            exact ⟨p, hkv ▸ hp, by simpa using hq.symm⟩
        | succ i =>
            right
            refine ⟨i, p, ?_, kv', by simpa using hkv, hp⟩
            simpa [Nat.add_assoc, Nat.add_comm 1 i] using hq

/-- The discovery characterisation: a path is collected by
`findProcessableItems` exactly when it points at a node satisfying the record
predicate — at any depth, records nested inside records included. -/
theorem findPaths_mem :
    ∀ (q : List Nat) (j : Json),
      q ∈ findPaths j ↔ ∃ node, getAt q j = some node ∧ isRecord node = true := by
  intro q
  induction q with
  | nil =>
      intro j
      cases j with
      | arr xs =>
          simp only [findPaths, mem_findPathsArr, getAt]
          constructor
          · rintro ⟨i, p, h, -⟩; cases h
          · rintro ⟨node, hnode, hrec⟩
            cases hnode; simp [isRecord] at hrec
      | obj kvs =>
          simp only [findPaths, List.mem_append, mem_findPathsObj, getAt]
          constructor
          · rintro (h | ⟨i, p, h, -⟩)
            · by_cases hr : isRecord (.obj kvs)
              · exact ⟨_, rfl, hr⟩
              · simp [hr] at h
            · cases h
          · rintro ⟨node, hnode, hrec⟩
            cases hnode
            left; simp [hrec]
      | null => simp [findPaths, getAt, isRecord]
      | undefined => simp [findPaths, getAt, isRecord]
      | bool b => simp [findPaths, getAt, isRecord]
      | num n => simp [findPaths, getAt, isRecord]
      | str s => simp [findPaths, getAt, isRecord]
  | cons i p ih =>
      intro j
      cases j with
      | arr xs =>
          simp only [findPaths, mem_findPathsArr, getAt]
          constructor
          · rintro ⟨i', p', h, x, hx, hp⟩
            obtain ⟨rfl, rfl⟩ : i = i' ∧ p = p' := by simpa using h
            simp only [hx]
            exact (ih x).mp hp
          · intro h
            cases hx : xs[i]? with
            | none => rw [hx] at h; simp at h
            | some x =>
                rw [hx] at h
                exact ⟨i, p, by simp, x, hx, (ih x).mpr (by simpa using h)⟩
      | obj kvs =>
          simp only [findPaths, List.mem_append, mem_findPathsObj, getAt]
          constructor
          · rintro (h | ⟨i', p', h, kv, hkv, hp⟩)
            · by_cases hr : isRecord (.obj kvs) <;> simp [hr] at h
            · obtain ⟨rfl, rfl⟩ : i = i' ∧ p = p' := by simpa using h
              simp only [hkv]
              exact (ih kv.2).mp hp
          · intro h
            cases hkv : kvs[i]? with
            | none => rw [hkv] at h; simp at h
            | some kv =>
                rw [hkv] at h
                right
                exact ⟨i, p, by simp, kv, hkv, (ih kv.2).mpr (by simpa using h)⟩
      | null => simp [findPaths, getAt]
      | undefined => simp [findPaths, getAt]
      | bool b => simp [findPaths, getAt]
      | num n => simp [findPaths, getAt]
      | str s => simp [findPaths, getAt]

/-! ### Batcher lemmas -/

theorem partitionChunks_eq_nil {b : Nat} {l : List α} :
    partitionChunks b l = [] ↔ l = [] := by
  cases l <;> simp [partitionChunks]

theorem partitionChunks_flatten (b : Nat) (_hb : 1 ≤ b) :
    ∀ (n : Nat) (l : List α), l.length ≤ n →
      (partitionChunks b l).flatten = l := by
  intro n
  induction n with
  | zero =>
      intro l h
      have hl : l = [] := by cases l <;> simp_all
      subst hl; simp [partitionChunks]
  | succ n ih =>
      intro l h
      cases l with
      | nil => simp [partitionChunks]
      | cons x xs =>
          rw [partitionChunks]
          simp only [List.flatten_cons, List.cons_append]
          rw [ih (xs.drop (b - 1)) (by simp [List.length_drop] at h ⊢; omega)]
          simp [List.take_append_drop]

theorem partitionChunks_length (b : Nat) (hb : 1 ≤ b) :
    ∀ (n : Nat) (l : List α), l.length ≤ n →
      (partitionChunks b l).length = (l.length + b - 1) / b := by
  intro n
  induction n with
  | zero =>
      intro l h
      have hl : l = [] := by cases l <;> simp_all
      subst hl
      simp [partitionChunks, Nat.div_eq_of_lt (by omega : b - 1 < b)]
  | succ n ih =>
      intro l h
      cases l with
      | nil => simp [partitionChunks, Nat.div_eq_of_lt (by omega : b - 1 < b)]
      | cons x xs =>
          rw [partitionChunks]
          simp only [List.length_cons]
          rw [ih (xs.drop (b - 1)) (by simp [List.length_drop] at h ⊢; omega)]
          simp only [List.length_drop]
          have hr : xs.length + 1 + b - 1 = xs.length + b := by omega
          rw [hr, Nat.add_div_right _ (by omega : 0 < b)]
          by_cases hc : xs.length ≤ b - 1
          · have h1 : xs.length - (b - 1) = 0 := by omega
            have h2 : (0 + b - 1) / b = 0 := Nat.div_eq_of_lt (by omega)
            have h3 : xs.length / b = 0 := Nat.div_eq_of_lt (by omega)
            rw [h1, h2, h3]
          · have h1 : xs.length - (b - 1) + b - 1 = xs.length := by omega
            rw [h1]

theorem partitionChunks_sizes (b : Nat) (hb : 1 ≤ b) :
    ∀ (n : Nat) (l : List α), l.length ≤ n →
      (∀ c ∈ (partitionChunks b l).dropLast, c.length = b) ∧
      (∀ c ∈ partitionChunks b l, 1 ≤ c.length ∧ c.length ≤ b) := by
  intro n
  induction n with
  | zero =>
      intro l h
      have hl : l = [] := by cases l <;> simp_all
      subst hl; simp [partitionChunks]
  | succ n ih =>
      intro l h
      cases l with
      | nil => simp [partitionChunks]
      | cons x xs =>
          rw [partitionChunks]
          have hlen : (xs.drop (b - 1)).length ≤ n := by
            simp [List.length_drop] at h ⊢; omega
          obtain ⟨ih1, ih2⟩ := ih (xs.drop (b - 1)) hlen
          constructor
          · intro c hc
            cases hrest : partitionChunks b (xs.drop (b - 1)) with
            | nil => rw [hrest] at hc; simp at hc
            | cons c0 cs =>
                rw [hrest] at hc
                rw [List.dropLast_cons₂] at hc
                rcases List.mem_cons.mp hc with rfl | hc'
                · have hxs : xs.drop (b - 1) ≠ [] := by
                    intro hnil
                    rw [hnil] at hrest; simp [partitionChunks] at hrest
                  have : b - 1 < xs.length := by
                    by_contra hcon
                    exact hxs (List.drop_eq_nil_of_le (by omega))
                  simp [List.length_take]
                  omega
                · exact ih1 c (by rw [hrest]; exact hc')
          · intro c hc
            rcases List.mem_cons.mp hc with rfl | hc'
            · simp [List.length_take]; omega
            · exact ih2 c hc'

/-! ### Dispatcher state lemmas -/

theorem addDelay_doc (st : RunState) (ms : Nat) : (addDelay st ms).doc = st.doc := rfl

theorem addDelay_calls (st : RunState) (ms : Nat) : (addDelay st ms).calls = st.calls := rfl

/-- A failing remote call: the attempt records the pacing delay (batches after
the first), consumes one call, and reports the orchestrator's rate-limit
classification of the rewritten message; nothing else changes. -/
theorem attemptOnce_fail (oracle : Nat → List Json → RemoteOutcome) (i : Nat)
    (batch : List (List Nat)) (payload : List Json) (st : RunState) (msg : String)
    (h : oracle st.calls payload = .fail msg) :
    attemptOnce oracle i batch payload st =
      ({ st with delays := st.delays ++ (if 0 < i then [2000] else []),
                 calls := st.calls + 1 },
       some (isRateLimit (convMsg msg))) := by
  unfold attemptOnce
  by_cases hi : 0 < i <;>
    simp [hi, addDelay, h, processBatchM]

/-- A successful remote call whose reconciliation pass raises no `TypeError`:
the attempt reconciles the present entries and counts the whole batch as
succeeded. -/
theorem attemptOnce_ok (oracle : Nat → List Json → RemoteOutcome) (i : Nat)
    (batch : List (List Nat)) (payload : List Json) (st : RunState) (v : Json)
    (doc1 : Json) (h : oracle st.calls payload = .ok v)
    (hrec : reconcileE batch st.doc (toResults v) = .ok doc1) :
    attemptOnce oracle i batch payload st =
      ({ st with delays := st.delays ++ (if 0 < i then [2000] else []),
                 calls := st.calls + 1, doc := doc1,
                 success := st.success + batch.length },
       none) := by
  unfold attemptOnce
  by_cases hi : 0 < i <;>
    simp [hi, addDelay, h, processBatchM, hrec]

/-- Three consecutive failing calls exhaust the 3-attempt budget: the document
is untouched, the batch's record count is added to the failed counter, exactly
three calls are made, and the backoff waits `10000`/`15000` (rate-limited) or
`2000` (other failures) are taken between attempts, interleaved with the
pacing delay for batches after the first.  No error escapes. -/
theorem attemptLoop_threeFails (oracle : Nat → List Json → RemoteOutcome)
    (i : Nat) (batch : List (List Nat)) (payload : List Json) (st : RunState)
    (m0 m1 m2 : String)
    (h0 : oracle st.calls payload = .fail m0)
    (h1 : oracle (st.calls + 1) payload = .fail m1)
    (h2 : oracle (st.calls + 2) payload = .fail m2) :
    attemptLoop oracle i batch payload 3 st =
      { doc := st.doc, success := st.success,
        failed := st.failed + batch.length, calls := st.calls + 3,
        delays := st.delays ++ (if 0 < i then [2000] else [])
          ++ [if isRateLimit (convMsg m0) then 10000 else 2000]
          ++ (if 0 < i then [2000] else [])
          ++ [if isRateLimit (convMsg m1) then 15000 else 2000]
          ++ (if 0 < i then [2000] else []),
        progress := st.progress } := by
  rw [show (3 : Nat) = 2 + 1 by rfl, attemptLoop,
    attemptOnce_fail oracle i batch payload st m0 h0]
  simp only [addDelay]
  rw [attemptLoop]
  rw [attemptOnce_fail oracle i batch payload _ m1 (by simpa using h1)]
  simp only [addDelay]
  rw [attemptLoop]
  rw [attemptOnce_fail oracle i batch payload _ m2 (by simpa using h2)]
  simp [addDelay]

/-- Each attempt either adds the whole batch's record count to the success
counter (remote call succeeded and reconciliation raised no `TypeError`) or
leaves both counters unchanged. -/
theorem attemptOnce_stats (oracle : Nat → List Json → RemoteOutcome) (i : Nat)
    (batch : List (List Nat)) (payload : List Json) (st : RunState) :
    ((attemptOnce oracle i batch payload st).2 = none →
        (attemptOnce oracle i batch payload st).1.success
            = st.success + batch.length ∧
          (attemptOnce oracle i batch payload st).1.failed = st.failed) ∧
    (∀ flag, (attemptOnce oracle i batch payload st).2 = some flag →
        (attemptOnce oracle i batch payload st).1.success = st.success ∧
          (attemptOnce oracle i batch payload st).1.failed = st.failed) := by
  unfold attemptOnce
  by_cases hi : 0 < i <;>
    cases hpb : processBatchM (oracle st.calls payload) with
  | ok results =>
      cases hrec : reconcileE batch st.doc results <;>
        simp [hi, addDelay, hpb, hrec]
  | error msg => simp [hi, addDelay, hpb]

/-- Every run of the retry loop (budget at least one attempt) finishes the
batch by adding its record count to exactly one of the two counters. -/
theorem attemptLoop_stats (oracle : Nat → List Json → RemoteOutcome) (i : Nat)
    (batch : List (List Nat)) (payload : List Json) :
    ∀ (r : Nat), 1 ≤ r → ∀ (st : RunState),
      (attemptLoop oracle i batch payload r st).success
          + (attemptLoop oracle i batch payload r st).failed
        = st.success + st.failed + batch.length := by
  intro r
  induction r with
  | zero => omega
  | succ r ih =>
      intro _ st
      obtain ⟨hnone, hsome⟩ := attemptOnce_stats oracle i batch payload st
      rw [attemptLoop]
      cases ho : attemptOnce oracle i batch payload st with
      | mk st1 o =>
          rw [ho] at hnone hsome
          cases o with
          | none =>
              obtain ⟨hs, hf⟩ := hnone rfl
              simp only at hs hf ⊢
              omega
          | some flag =>
              obtain ⟨hs, hf⟩ := hsome flag rfl
              simp only at hs hf ⊢
              by_cases hr : r = 0
              · subst hr; simp only [if_pos rfl]; simp; omega
              · rw [if_neg hr]
                rw [ih (by omega) (addDelay st1 (if flag then 5000 * (4 - r) else 2000))]
                simp [addDelay]
                omega

/-! ### Orchestrator lemmas -/

/-- Loop invariant for the statistics: once the fuel covers the remaining
iterations (as `runKB`'s `fuel := total` always does), the two counters
jointly grow by exactly the number of records not yet processed. -/
theorem runLoop_stats (oracle : Nat → List Json → RemoteOutcome)
    (paths : List (List Nat)) :
    ∀ (fuel i : Nat) (st : RunState), paths.length - i ≤ 3 * fuel →
      (runLoop oracle paths paths.length fuel i st).success
          + (runLoop oracle paths paths.length fuel i st).failed
        = st.success + st.failed + (paths.length - i) := by
  intro fuel
  induction fuel with
  | zero =>
      intro i st h
      rw [runLoop]
      omega
  | succ fuel ih =>
      intro i st h
      rw [runLoop]
      by_cases hi : i < paths.length
      · rw [if_pos hi]
        simp only [BATCH_SIZE]
        rw [ih (i + 3) _ (by omega)]
        dsimp only
        rw [attemptLoop_stats oracle i _ _ 3 (by omega) st]
        have hbatch : ((paths.drop i).take 3).length
            = min 3 (paths.length - i) := by
          simp [List.length_take, List.length_drop]
        rw [hbatch]
        omega
      · rw [if_neg hi]
        omega

/-- Loop behaviour when every remote interaction fails: the document is never
touched, every batch is attempted exactly three times and soft-fails, and the
loop still visits every batch, reporting progress for each. -/
theorem runLoop_allFail (oracle : Nat → List Json → RemoteOutcome)
    (paths : List (List Nat))
    (hfail : ∀ (n : Nat) (pl : List Json), ∃ m, oracle n pl = .fail m) :
    ∀ (fuel i : Nat) (st : RunState), paths.length - i ≤ 3 * fuel →
      (runLoop oracle paths paths.length fuel i st).doc = st.doc ∧
      (runLoop oracle paths paths.length fuel i st).success = st.success ∧
      (runLoop oracle paths paths.length fuel i st).failed
        = st.failed + (paths.length - i) ∧
      (runLoop oracle paths paths.length fuel i st).calls
        = st.calls + 3 * ((paths.length - i + 2) / 3) ∧
      (runLoop oracle paths paths.length fuel i st).progress.length
        = st.progress.length + (paths.length - i + 2) / 3 := by
  intro fuel
  induction fuel with
  | zero =>
      intro i st h
      rw [runLoop]
      refine ⟨rfl, rfl, by omega, by omega, by omega⟩
  | succ fuel ih =>
      intro i st h
      rw [runLoop]
      by_cases hi : i < paths.length
      · rw [if_pos hi]
        simp only [BATCH_SIZE]
        obtain ⟨m0, h0⟩ := hfail st.calls (mkPayload st.doc 0 ((paths.drop i).take 3))
        obtain ⟨m1, h1⟩ := hfail (st.calls + 1) (mkPayload st.doc 0 ((paths.drop i).take 3))
        obtain ⟨m2, h2⟩ := hfail (st.calls + 2) (mkPayload st.doc 0 ((paths.drop i).take 3))
        rw [attemptLoop_threeFails oracle i ((paths.drop i).take 3)
          (mkPayload st.doc 0 ((paths.drop i).take 3)) st m0 m1 m2 h0 h1 h2]
        have hbatch : ((paths.drop i).take 3).length
            = min 3 (paths.length - i) := by
          simp [List.length_take, List.length_drop]
        refine ⟨?_, ?_, ?_, ?_, ?_⟩
        · rw [(ih (i + 3) _ (by omega)).1]
        · rw [(ih (i + 3) _ (by omega)).2.1]
        · rw [(ih (i + 3) _ (by omega)).2.2.1]
          dsimp only
          omega
        · rw [(ih (i + 3) _ (by omega)).2.2.2.1]
          dsimp only
          omega
        · rw [(ih (i + 3) _ (by omega)).2.2.2.2]
          dsimp only
          simp only [List.length_append, List.length_cons, List.length_nil]
          omega
      · rw [if_neg hi]
        refine ⟨rfl, rfl, by omega, by omega, by omega⟩

/-- Run behaviour when every remote interaction fails (`runKB` level): the
returned document is exactly the untouched internal clone, every record is
counted as failed, none as succeeded, and all `ceil(total/3)` batches are
attempted (three calls each) with a progress report per batch — the run
returns instead of raising. -/
theorem runKB_allFail (doc : Json) (oracle : Nat → List Json → RemoteOutcome)
    (hfail : ∀ (n : Nat) (pl : List Json), ∃ m, oracle n pl = .fail m) :
    (runKB doc oracle).data = jsonClone doc ∧
    (runKB doc oracle).stats
      = ⟨(findPaths (jsonClone doc)).length, 0, (findPaths (jsonClone doc)).length⟩ ∧
    (runKB doc oracle).calls = 3 * (((findPaths (jsonClone doc)).length + 2) / 3) ∧
    (runKB doc oracle).progress.length
      = ((findPaths (jsonClone doc)).length + 2) / 3 := by
  simp only [runKB]
  by_cases h0 : (findPaths (jsonClone doc)).length = 0
  · rw [if_pos h0]
    dsimp only
    rw [h0]
    exact ⟨rfl, rfl, rfl, rfl⟩
  · rw [if_neg h0]
    dsimp only
    obtain ⟨hdoc, hs, hf, hc, hp⟩ :=
      runLoop_allFail oracle (findPaths (jsonClone doc)) hfail
        (findPaths (jsonClone doc)).length 0 ⟨jsonClone doc, 0, 0, 0, [], []⟩
        (by omega)
    refine ⟨hdoc, ?_, ?_, ?_⟩
    · rw [Stats.mk.injEq]
      exact ⟨rfl, by simpa using hs, by simpa using hf⟩
    · simpa using hc
    · simpa using hp

/-! ### Reconciliation lemmas -/

/-- When no entry of a batch result is `null` or `undefined`, the
reconciliation pass raises no `TypeError` and is the plain left fold of
single-entry reconciliation. -/
theorem reconcileE_ok (batch : List (List Nat)) :
    ∀ (rs : List Json) (doc : Json),
      (∀ r ∈ rs, r ≠ .null ∧ r ≠ .undefined) →
      reconcileE batch doc rs = .ok (reconcile batch doc rs) := by
  intro rs
  induction rs with
  | nil => intro doc _; simp [reconcileE, reconcile]
  | cons r rs ih =>
      intro doc h
      obtain ⟨⟨hn, hu⟩, hrest⟩ := List.forall_mem_cons.mp h
      have hstep : reconcileE batch doc (r :: rs)
          = reconcileE batch (reconcileOne batch doc r) rs := by
        cases r <;> simp_all [reconcileE]
      rw [hstep, ih (reconcileOne batch doc r) hrest]
      simp [reconcile]

/-- A result entry without a number-typed `_index` that names an existing
element of the batch is ignored: out-of-range, negative, fractional-free
non-number or missing indices all leave the document unchanged. -/
theorem reconcileOne_invalid (batch : List (List Nat)) (doc : Json) (r : Json)
    (h : ¬ ∃ k : Int, getField r "_index" = some (.num k) ∧ 0 ≤ k
        ∧ k.toNat < batch.length) :
    reconcileOne batch doc r = doc := by
  unfold reconcileOne
  cases hidx : getField r "_index" with
  | none => rfl
  | some v =>
      cases v with
      | num k =>
          dsimp only
          by_cases hk : 0 ≤ k
          · rw [if_pos hk]
            cases hget : batch[k.toNat]? with
            | none => rfl
            | some p =>
                exact absurd ⟨k, hidx, hk, (List.getElem?_eq_some_iff.mp hget).1⟩ h
          · rw [if_neg hk]
      | null => rfl
      | undefined => rfl
      | bool b => rfl
      | str s => rfl
      | arr xs => rfl
      | obj kvs => rfl

/-- The payload built for a batch carries exactly the correlation indices
`n`, `n+1`, … for its records, in order (`n = 0` at the call site). -/
theorem mkPayload_indices (doc : Json) :
    ∀ (batch : List (List Nat)) (n : Nat) (j : Nat), j < batch.length →
      ∃ e, (mkPayload doc n batch)[j]? = some e ∧
        getField e "_index" = some (.num (n + j)) := by
  intro batch
  induction batch with
  | nil => intro n j hj; simp at hj
  | cons p rest ih =>
      intro n j hj
      cases j with
      | zero =>
          refine ⟨.obj [("_index", .num n),
            ("name", getFieldU ((getAt p doc).getD .undefined) "name"),
            ("description", getFieldU ((getAt p doc).getD .undefined) "description")],
            ?_, ?_⟩
          · simp [mkPayload]
          · simp [getField, lookupField]
      | succ j =>
          obtain ⟨e, he, hidx⟩ := ih (n + 1) j (by simpa using Nat.lt_of_succ_lt_succ hj)
          refine ⟨e, by simpa [mkPayload] using he, ?_⟩
          rw [hidx]
          simp only [Option.some.injEq, Json.num.injEq]
          omega

theorem updateNth_getElem_self (f : α → α) :
    ∀ (i : Nat) (xs : List α), (updateNth f i xs)[i]? = (xs[i]?).map f := by
  intro i
  induction i with
  | zero => intro xs; cases xs <;> simp [updateNth]
  | succ i ih => intro xs; cases xs <;> simp [updateNth, ih]

/-- Mutating through a record reference: reading the path back after
`updateAt` sees the function applied to the old node. -/
theorem getAt_updateAt (f : Json → Json) :
    ∀ (p : List Nat) (doc node : Json), getAt p doc = some node →
      getAt p (updateAt f p doc) = some (f node) := by
  intro p
  induction p with
  | nil => intro doc node h; cases h; rfl
  | cons i p ih =>
      intro doc node h
      cases doc with
      | arr xs =>
          rw [getAt] at h
          cases hx : xs[i]? with
          | none => rw [hx] at h; cases h
          | some x =>
              rw [hx] at h
              rw [updateAt, getAt, updateNth_getElem_self, hx]
              exact ih x node h
      | obj kvs =>
          rw [getAt] at h
          cases hkv : kvs[i]? with
          | none => rw [hkv] at h; cases h
          | some kv =>
              rw [hkv] at h
              rw [updateAt, getAt, updateNth_getElem_self, hkv]
              exact ih kv.2 node h
      | null => simp [getAt] at h
      | undefined => simp [getAt] at h
      | bool b => simp [getAt] at h
      | num n => simp [getAt] at h
      | str s => simp [getAt] at h

theorem lookupField_setField_self :
    ∀ (kvs : List (String × Json)) (k : String) (v : Json),
      lookupField (setField kvs k v) k = some v := by
  intro kvs
  induction kvs with
  | nil => intro k v; simp [setField, lookupField]
  | cons kv kvs ih =>
      intro k v
      obtain ⟨k', v'⟩ := kv
      by_cases hk : k' = k
      · simp [setField, hk, lookupField]
      · simp [setField, hk, lookupField, ih]

theorem lookupField_setField_other :
    ∀ (kvs : List (String × Json)) (k k' : String) (v : Json), k' ≠ k →
      lookupField (setField kvs k v) k' = lookupField kvs k' := by
  intro kvs
  induction kvs with
  | nil => intro k k' v h; simp [setField, lookupField, Ne.symm h]
  | cons kv kvs ih =>
      intro k k' v h
      obtain ⟨k0, v0⟩ := kv
      by_cases hk : k0 = k
      · subst hk
        simp [setField, lookupField, h, Ne.symm h]
      · simp [setField, hk, lookupField, ih _ _ _ h]

theorem isStrOpt_some (v : Json) : isStrOpt (some v) = isStrVal v := by
  cases v <;> rfl

/-- A first-attempt success: one call, the pacing delay only, the present
entries reconciled, and the whole batch's record count added to the success
counter — the remaining retry budget is never consulted. -/
theorem attemptLoop_firstOk (oracle : Nat → List Json → RemoteOutcome)
    (i : Nat) (batch : List (List Nat)) (payload : List Json) (st : RunState)
    (v : Json) (doc1 : Json)
    (h : oracle st.calls payload = .ok v)
    (hrec : reconcileE batch st.doc (toResults v) = .ok doc1) :
    attemptLoop oracle i batch payload 3 st =
      { st with delays := st.delays ++ (if 0 < i then [2000] else []),
                calls := st.calls + 1, doc := doc1,
                success := st.success + batch.length } := by
  rw [show (3 : Nat) = 2 + 1 by rfl, attemptLoop,
    attemptOnce_ok oracle i batch payload st v doc1 h hrec]

mutual
/-- On `undefined`-free values (every `JSON.parse` output) the deep clone is
the identity, so the processed copy starts out equal to the input document. -/
def jsonClone_id : ∀ (j : Json), noUndefined j = true → jsonClone j = j
  | .null, _ => rfl
  | .undefined, h => by simp [noUndefined] at h
  | .bool _, _ => rfl
  | .num _, _ => rfl
  | .str _, _ => rfl
  | .arr xs, h => by rw [jsonClone, cloneArr_id xs (by simpa [noUndefined] using h)]
  | .obj kvs, h => by rw [jsonClone, cloneObj_id kvs (by simpa [noUndefined] using h)]

/-- Clone identity for `undefined`-free array elements. -/
def cloneArr_id : ∀ (xs : List Json), noUndefinedArr xs = true → cloneArr xs = xs
  | [], _ => rfl
  | .undefined :: _, h => by simp [noUndefinedArr, noUndefined] at h
  | .null :: xs, h => by
      obtain ⟨h1, h2⟩ : noUndefined .null = true ∧ noUndefinedArr xs = true := by
        simpa [noUndefinedArr] using h
      simp [cloneArr, jsonClone_id _ h1, cloneArr_id xs h2]
  | .bool b :: xs, h => by
      obtain ⟨h1, h2⟩ : noUndefined (.bool b) = true ∧ noUndefinedArr xs = true := by
        simpa [noUndefinedArr] using h
      simp [cloneArr, jsonClone_id _ h1, cloneArr_id xs h2]
  | .num n :: xs, h => by
      obtain ⟨h1, h2⟩ : noUndefined (.num n) = true ∧ noUndefinedArr xs = true := by
        simpa [noUndefinedArr] using h
      simp [cloneArr, jsonClone_id _ h1, cloneArr_id xs h2]
  | .str s :: xs, h => by
      obtain ⟨h1, h2⟩ : noUndefined (.str s) = true ∧ noUndefinedArr xs = true := by
        simpa [noUndefinedArr] using h
      simp [cloneArr, jsonClone_id _ h1, cloneArr_id xs h2]
  | .arr ys :: xs, h => by
      obtain ⟨h1, h2⟩ : noUndefined (.arr ys) = true ∧ noUndefinedArr xs = true := by
        simpa [noUndefinedArr] using h
      simp [cloneArr, jsonClone_id _ h1, cloneArr_id xs h2]
  | .obj kvs :: xs, h => by
      obtain ⟨h1, h2⟩ : noUndefined (.obj kvs) = true ∧ noUndefinedArr xs = true := by
        simpa [noUndefinedArr] using h
      simp [cloneArr, jsonClone_id _ h1, cloneArr_id xs h2]

/-- Clone identity for `undefined`-free object fields. -/
def cloneObj_id :
    ∀ (kvs : List (String × Json)), noUndefinedObj kvs = true → cloneObj kvs = kvs
  | [], _ => rfl
  | (_, .undefined) :: _, h => by simp [noUndefinedObj, noUndefined] at h
  | (k, .null) :: kvs, h => by
      obtain ⟨h1, h2⟩ : noUndefined .null = true ∧ noUndefinedObj kvs = true := by
        simpa [noUndefinedObj] using h
      simp [cloneObj, jsonClone_id _ h1, cloneObj_id kvs h2]
  | (k, .bool b) :: kvs, h => by
      obtain ⟨h1, h2⟩ : noUndefined (.bool b) = true ∧ noUndefinedObj kvs = true := by
        simpa [noUndefinedObj] using h
      simp [cloneObj, jsonClone_id _ h1, cloneObj_id kvs h2]
  | (k, .num n) :: kvs, h => by
      obtain ⟨h1, h2⟩ : noUndefined (.num n) = true ∧ noUndefinedObj kvs = true := by
        simpa [noUndefinedObj] using h
      simp [cloneObj, jsonClone_id _ h1, cloneObj_id kvs h2]
  | (k, .str s) :: kvs, h => by
      obtain ⟨h1, h2⟩ : noUndefined (.str s) = true ∧ noUndefinedObj kvs = true := by
        simpa [noUndefinedObj] using h
      simp [cloneObj, jsonClone_id _ h1, cloneObj_id kvs h2]
  | (k, .arr ys) :: kvs, h => by
      obtain ⟨h1, h2⟩ : noUndefined (.arr ys) = true ∧ noUndefinedObj kvs = true := by
        simpa [noUndefinedObj] using h
      simp [cloneObj, jsonClone_id _ h1, cloneObj_id kvs h2]
  | (k, .obj kvs1) :: kvs, h => by
      obtain ⟨h1, h2⟩ : noUndefined (.obj kvs1) = true ∧ noUndefinedObj kvs = true := by
        simpa [noUndefinedObj] using h
      simp [cloneObj, jsonClone_id _ h1, cloneObj_id kvs h2]
end

/-! ### Test fixtures for concrete runs -/

/-- A minimal record node: an object with string `name` and `description`. -/
def recNode (n d : String) : Json :=
  .obj [("name", .str n), ("description", .str d)]

/-- A well-formed batch-result entry. -/
def resEntry (i : Int) (n d : String) : Json :=
  .obj [("_index", .num i), ("name", .str n), ("description", .str d)]

/-- The error message `getAiClient` throws when the API key is missing
(part_001 line 8). -/
def apiKeyMissingMsg : String :=
  "API Key 未配置。请确保在部署环境 (Vercel/Netlify) 中设置了 API_KEY 环境变量。"

/-! ### Claims -/

/-- Claim C7: record discovery is a pre-order depth-first walk — (1) a path is
collected exactly when it points at a mapping node whose two designated fields
are string-valued; (2) a matching node is collected before its children are
recursed into (outer first), and is still recursed into; (3) a record nested
inside another record yields two references, outer first; (4) sequence
children are visited in index order. -/
theorem c7_discovery_preorder :
    (∀ (q : List Nat) (j : Json),
        q ∈ findPaths j ↔ ∃ node, getAt q j = some node ∧ isRecord node = true) ∧
    (∀ (kvs : List (String × Json)), isRecord (.obj kvs) = true →
        findPaths (.obj kvs) = [] :: findPathsObj 0 kvs) ∧
    (findPaths (.obj [("name", .str "n"), ("description", .str "d"),
        ("child", .obj [("name", .str "n2"), ("description", .str "d2")])])
      = [[], [2]]) ∧
    (∀ (k : Nat) (x : Json) (xs : List Json),
        findPathsArr k (x :: xs)
          = (findPaths x).map (k :: ·) ++ findPathsArr (k + 1) xs) := by
  refine ⟨findPaths_mem, ?_, rfl, fun k x xs => rfl⟩
  intro kvs h
  simp [findPaths, h]

/-- Witness for C7: the characterisation and the outer-first equation
evaluated on a concrete record. -/
theorem c7_discovery_preorder_witness :
    [] ∈ findPaths (.obj [("name", .str "a"), ("description", .str "b")]) ∧
    findPaths (.obj [("name", .str "a"), ("description", .str "b")])
      = [] :: findPathsObj 0 [("name", .str "a"), ("description", .str "b")] :=
  ⟨(c7_discovery_preorder.1 [] _).mpr ⟨_, rfl, rfl⟩,
   c7_discovery_preorder.2.1 _ rfl⟩

/-- Claim C8: for every batch size ≥ 1, the slicing produces
`ceil(n / batchSize)` batches, all of size `batchSize` except possibly the
last, whose in-order concatenation reproduces discovery order; and a run with
zero discovered records returns immediately with `{total 0, success 0,
failed 0}`, zero remote calls and zero progress calls. -/
theorem c8_partition_and_empty :
    (∀ (α : Type) (b : Nat), 1 ≤ b → ∀ (l : List α),
        (partitionChunks b l).length = (l.length + b - 1) / b ∧
        (partitionChunks b l).flatten = l ∧
        (∀ c ∈ (partitionChunks b l).dropLast, c.length = b) ∧
        (∀ c ∈ partitionChunks b l, 1 ≤ c.length ∧ c.length ≤ b)) ∧
    (∀ (doc : Json) (oracle : Nat → List Json → RemoteOutcome),
        findPaths (jsonClone doc) = [] →
        runKB doc oracle
          = { data := jsonClone doc, stats := ⟨0, 0, 0⟩, calls := 0,
              delays := [], progress := [], callerDoc := doc }) := by
  constructor
  · intro α b hb l
    exact ⟨partitionChunks_length b hb l.length l le_rfl,
      partitionChunks_flatten b hb l.length l le_rfl,
      (partitionChunks_sizes b hb l.length l le_rfl).1,
      (partitionChunks_sizes b hb l.length l le_rfl).2⟩
  · intro doc oracle h
    simp only [runKB]
    rw [if_pos (by rw [h]; rfl)]

/-- Witness for C8: partition of a 3-element list at batch size 2, and the
empty run on a document with no records. -/
theorem c8_partition_and_empty_witness :
    (partitionChunks 2 ([[0], [1], [2]] : List (List Nat))).flatten
      = [[0], [1], [2]] ∧
    runKB (.obj [("k", .num 1)]) (fun _ _ => .fail "never called")
      = { data := jsonClone (.obj [("k", .num 1)]), stats := ⟨0, 0, 0⟩,
          calls := 0, delays := [], progress := [],
          callerDoc := .obj [("k", .num 1)] } :=
  ⟨(c8_partition_and_empty.1 (List Nat) 2 (by omega) [[0], [1], [2]]).2.1,
   c8_partition_and_empty.2 _ _ rfl⟩

/-- Claim C9: at completion the caller receives the processed document with
`{total, succeeded, failed}` counted over records — `total` is the number of
discovered records — and `succeeded + failed = total` holds, for every
document and every remote behaviour. -/
theorem c9_stats_invariant (doc : Json)
    (oracle : Nat → List Json → RemoteOutcome) :
    (runKB doc oracle).stats.success + (runKB doc oracle).stats.failed
      = (runKB doc oracle).stats.total ∧
    (runKB doc oracle).stats.total = (findPaths (jsonClone doc)).length := by
  simp only [runKB]
  by_cases h0 : (findPaths (jsonClone doc)).length = 0
  · rw [if_pos h0]
    exact ⟨rfl, h0.symm⟩
  · rw [if_neg h0]
    dsimp only
    refine ⟨?_, rfl⟩
    have h := runLoop_stats oracle (findPaths (jsonClone doc))
      (findPaths (jsonClone doc)).length 0 ⟨jsonClone doc, 0, 0, 0, [], []⟩
      (by omega)
    simpa using h

/-- Claim C10: for a result entry whose `_index` is a number indexing an
existing record of the batch, reconciliation unconditionally assigns the
entry's `name` and `description` values (a missing property assigning the
JS `undefined`) with no string validation, and the updated node satisfies the
record predicate exactly when both assigned values are strings — so an entry
omitting them, or carrying non-strings, breaks the record shape. -/
theorem c10_unvalidated_overwrite (batch : List (List Nat)) (doc : Json)
    (r : Json) (k : Int) (p : List Nat) (kvs : List (String × Json))
    (hidx : getField r "_index" = some (.num k)) (hk : 0 ≤ k)
    (hp : batch[k.toNat]? = some p)
    (hnode : getAt p doc = some (.obj kvs)) :
    getAt p (reconcileOne batch doc r)
      = some (.obj (setField (setField kvs "name" (getFieldU r "name"))
          "description" (getFieldU r "description"))) ∧
    isRecord (.obj (setField (setField kvs "name" (getFieldU r "name"))
          "description" (getFieldU r "description")))
      = (isStrVal (getFieldU r "name") && isStrVal (getFieldU r "description")) := by
  constructor
  · unfold reconcileOne
    rw [hidx]
    dsimp only
    rw [if_pos hk, hp]
    exact getAt_updateAt _ p doc _ hnode
  · rw [isRecord]
    rw [lookupField_setField_self,
      lookupField_setField_other _ _ _ _ (by decide),
      lookupField_setField_self, isStrOpt_some, isStrOpt_some]

/-- Witness for C10: an entry with a valid index but no `name`/`description`
overwrites both fields with `undefined` and the node stops being a record. -/
theorem c10_unvalidated_overwrite_witness :
    getAt [0] (reconcileOne [[0]] (.arr [recNode "a" "b"])
        (.obj [("_index", .num 0)]))
      = some (.obj (setField
          (setField [("name", .str "a"), ("description", .str "b")] "name"
            (getFieldU (.obj [("_index", .num 0)]) "name"))
          "description" (getFieldU (.obj [("_index", .num 0)]) "description"))) ∧
    isRecord (.obj (setField
          (setField [("name", .str "a"), ("description", .str "b")] "name"
            (getFieldU (.obj [("_index", .num 0)]) "name"))
          "description" (getFieldU (.obj [("_index", .num 0)]) "description")))
      = (isStrVal (getFieldU (.obj [("_index", .num 0)]) "name")
          && isStrVal (getFieldU (.obj [("_index", .num 0)]) "description")) :=
  c10_unvalidated_overwrite [[0]] (.arr [recNode "a" "b"])
    (.obj [("_index", .num 0)]) 0 [0]
    [("name", .str "a"), ("description", .str "b")] rfl (by omega) rfl rfl

/-- Claim C1: an exhausted retry budget is a soft failure — (1) three failing
calls leave the document untouched and add the batch's record count to the
failed counter, with success untouched; (2) at run level, even when every call
fails, the run completes all batches (one progress report per batch), returns
the untouched clone (equal to the input for `undefined`-free documents), and
counts every record as failed — nothing is raised to the caller. -/
theorem c1_soft_permanent_failure :
    (∀ (oracle : Nat → List Json → RemoteOutcome) (i : Nat)
        (batch : List (List Nat)) (payload : List Json) (st : RunState)
        (m0 m1 m2 : String),
        oracle st.calls payload = .fail m0 →
        oracle (st.calls + 1) payload = .fail m1 →
        oracle (st.calls + 2) payload = .fail m2 →
        (attemptLoop oracle i batch payload 3 st).doc = st.doc ∧
        (attemptLoop oracle i batch payload 3 st).failed
          = st.failed + batch.length ∧
        (attemptLoop oracle i batch payload 3 st).success = st.success) ∧
    (∀ (doc : Json) (oracle : Nat → List Json → RemoteOutcome),
        (∀ (n : Nat) (pl : List Json), ∃ m, oracle n pl = .fail m) →
        (runKB doc oracle).data = jsonClone doc ∧
        (noUndefined doc = true → (runKB doc oracle).data = doc) ∧
        (runKB doc oracle).stats.failed = (runKB doc oracle).stats.total ∧
        (runKB doc oracle).stats.success = 0 ∧
        (runKB doc oracle).progress.length
          = ((findPaths (jsonClone doc)).length + 2) / 3) := by
  constructor
  · intro oracle i batch payload st m0 m1 m2 h0 h1 h2
    rw [attemptLoop_threeFails oracle i batch payload st m0 m1 m2 h0 h1 h2]
    exact ⟨rfl, rfl, rfl⟩
  · intro doc oracle hfail
    obtain ⟨hdata, hstats, hcalls, hprog⟩ := runKB_allFail doc oracle hfail
    refine ⟨hdata, fun hnu => by rw [hdata, jsonClone_id doc hnu], ?_, ?_, hprog⟩
    · rw [hstats]
    · rw [hstats]

/-- Witness for C1: a concrete single-record run whose remote always fails. -/
theorem c1_soft_permanent_failure_witness :
    (attemptLoop (fun _ _ => .fail "boom") 0 [[0]] [] 3
        ⟨.arr [recNode "a" "b"], 0, 0, 0, [], []⟩).doc
      = (⟨.arr [recNode "a" "b"], 0, 0, 0, [], []⟩ : RunState).doc ∧
    (runKB (.arr [recNode "a" "b"]) (fun _ _ => .fail "boom")).stats.failed
      = (runKB (.arr [recNode "a" "b"]) (fun _ _ => .fail "boom")).stats.total :=
  ⟨(c1_soft_permanent_failure.1 (fun _ _ => .fail "boom") 0 [[0]] [] _
      "boom" "boom" "boom" rfl rfl rfl).1,
   (c1_soft_permanent_failure.2 (.arr [recNode "a" "b"]) _
      (fun _ _ => ⟨"boom", rfl⟩)).2.2.1⟩

/-- Claim C2 counterexample: the caller's document binding is unchanged after
a run that successfully rewrites a record — the function deep-copies
internally, so the passed document is NOT mutated in place and the caller
needs no defensive deep copy, contradicting the claim. -/
theorem c2_mutation_counterexample :
    (runKB (.arr [recNode "a" "b"])
        (fun _ _ => .ok (.arr [resEntry 0 "A2" "B2"]))).callerDoc
      = .arr [recNode "a" "b"] ∧
    strAt (runKB (.arr [recNode "a" "b"])
        (fun _ _ => .ok (.arr [resEntry 0 "A2" "B2"]))).callerDoc [0] "name"
      = some "a" ∧
    strAt (runKB (.arr [recNode "a" "b"])
        (fun _ _ => .ok (.arr [resEntry 0 "A2" "B2"]))).data [0] "name"
      = some "A2" ∧
    strAt (runKB (.arr [recNode "a" "b"])
        (fun _ _ => .ok (.arr [resEntry 0 "A2" "B2"]))).callerDoc [0] "name"
      ≠ strAt (runKB (.arr [recNode "a" "b"])
        (fun _ _ => .ok (.arr [resEntry 0 "A2" "B2"]))).data [0] "name" :=
  ⟨rfl, rfl, rfl, by decide⟩

/-- Claim C2 (amended): `processJsonKnowledgeBase` deep-copies the input and
never mutates the caller's document; reconciliation mutates the internal copy,
and a batch whose calls all fail leaves the copy's records untouched (never
mutates for failed entries). -/
theorem c2_amended_internal_copy :
    (∀ (doc : Json) (oracle : Nat → List Json → RemoteOutcome),
        (runKB doc oracle).callerDoc = doc) ∧
    (∀ (oracle : Nat → List Json → RemoteOutcome) (i : Nat)
        (batch : List (List Nat)) (payload : List Json) (st : RunState)
        (m0 m1 m2 : String),
        oracle st.calls payload = .fail m0 →
        oracle (st.calls + 1) payload = .fail m1 →
        oracle (st.calls + 2) payload = .fail m2 →
        (attemptLoop oracle i batch payload 3 st).doc = st.doc) := by
  constructor
  · intro doc oracle
    simp only [runKB]
    by_cases h0 : (findPaths (jsonClone doc)).length = 0
    · rw [if_pos h0]
    · rw [if_neg h0]
  · intro oracle i batch payload st m0 m1 m2 h0 h1 h2
    rw [attemptLoop_threeFails oracle i batch payload st m0 m1 m2 h0 h1 h2]

/-- Witness for the amended C2 on a concrete run. -/
theorem c2_amended_internal_copy_witness :
    (runKB (.arr [recNode "a" "b"])
        (fun _ _ => .ok (.arr [resEntry 0 "A2" "B2"]))).callerDoc
      = .arr [recNode "a" "b"] ∧
    (attemptLoop (fun _ _ => .fail "down") 0 [[0]] [] 3
        ⟨.arr [recNode "a" "b"], 0, 0, 0, [], []⟩).doc
      = (⟨.arr [recNode "a" "b"], 0, 0, 0, [], []⟩ : RunState).doc :=
  ⟨c2_amended_internal_copy.1 _ _,
   c2_amended_internal_copy.2 (fun _ _ => .fail "down") 0 [[0]] [] _
     "down" "down" "down" rfl rfl rfl⟩

/-- Claim C3 counterexample: with the exact missing-API-key error on every
call, the run still attempts the batch three times (three remote
interactions), raises nothing, and completes with the records counted as
failed — the missing credential is neither detected nor raised before batches
are attempted. -/
theorem c3_config_counterexample :
    (runKB (.arr [recNode "x" "y"]) (fun _ _ => .fail apiKeyMissingMsg)).calls
      = 3 ∧
    (runKB (.arr [recNode "x" "y"]) (fun _ _ => .fail apiKeyMissingMsg)).stats
      = ⟨1, 0, 1⟩ ∧
    (runKB (.arr [recNode "x" "y"]) (fun _ _ => .fail apiKeyMissingMsg)).data
      = jsonClone (.arr [recNode "x" "y"]) :=
  ⟨rfl, rfl, rfl⟩

/-- Claim C3 (amended): the processing run raises nothing at all — the
missing-credential error is thrown per call inside the transform client,
absorbed by the retry machinery like any remote failure, and converted into
statistics; batches are attempted (three calls each) despite the missing
credential. -/
theorem c3_amended_config_absorbed (doc : Json)
    (oracle : Nat → List Json → RemoteOutcome)
    (hconf : ∀ (n : Nat) (pl : List Json), oracle n pl = .fail apiKeyMissingMsg) :
    (runKB doc oracle).stats.failed = (runKB doc oracle).stats.total ∧
    (runKB doc oracle).stats.success = 0 ∧
    (runKB doc oracle).calls
      = 3 * (((findPaths (jsonClone doc)).length + 2) / 3) ∧
    (runKB doc oracle).data = jsonClone doc := by
  obtain ⟨hdata, hstats, hcalls, hprog⟩ :=
    runKB_allFail doc oracle (fun n pl => ⟨apiKeyMissingMsg, hconf n pl⟩)
  refine ⟨?_, ?_, hcalls, hdata⟩
  · rw [hstats]
  · rw [hstats]

/-- Witness for the amended C3 on a concrete two-record document. -/
theorem c3_amended_config_absorbed_witness :
    (runKB (.arr [recNode "x" "y", recNode "z" "w"])
        (fun _ _ => .fail apiKeyMissingMsg)).stats.failed
      = (runKB (.arr [recNode "x" "y", recNode "z" "w"])
          (fun _ _ => .fail apiKeyMissingMsg)).stats.total ∧
    (runKB (.arr [recNode "x" "y", recNode "z" "w"])
        (fun _ _ => .fail apiKeyMissingMsg)).calls
      = 3 * (((findPaths (jsonClone
          (.arr [recNode "x" "y", recNode "z" "w"]))).length + 2) / 3) :=
  ⟨(c3_amended_config_absorbed (.arr [recNode "x" "y", recNode "z" "w"]) _
      (fun _ _ => rfl)).1,
   (c3_amended_config_absorbed (.arr [recNode "x" "y", recNode "z" "w"]) _
      (fun _ _ => rfl)).2.2.1⟩

/-- Claim C4 counterexample: a successful call whose result omits the entry
for the second of two records reconciles only the first record and leaves the
second untouched without crashing — but the missing record is counted as
SUCCEEDED, not failed: the statistics are `{total 2, success 2, failed 0}`
where the claim predicts `failed = 1`. -/
theorem c4_partial_counterexample :
    (runKB (.arr [recNode "a" "b", recNode "c" "d"])
        (fun _ _ => .ok (.arr [resEntry 0 "A" "B"]))).stats = ⟨2, 2, 0⟩ ∧
    strAt (runKB (.arr [recNode "a" "b", recNode "c" "d"])
        (fun _ _ => .ok (.arr [resEntry 0 "A" "B"]))).data [0] "name"
      = some "A" ∧
    strAt (runKB (.arr [recNode "a" "b", recNode "c" "d"])
        (fun _ _ => .ok (.arr [resEntry 0 "A" "B"]))).data [1] "name"
      = some "c" ∧
    ¬ (runKB (.arr [recNode "a" "b", recNode "c" "d"])
        (fun _ _ => .ok (.arr [resEntry 0 "A" "B"]))).stats.failed = 1 :=
  ⟨rfl, rfl, rfl, by decide⟩

/-- Claim C4 (amended): on a successful call whose entries raise no
`TypeError`, exactly the present in-range entries are reconciled (the document
becomes the fold of single-entry reconciliation), entries without a valid
in-range numeric index are ignored without crashing, the payload carries the
correlation indices `0 … batch.length-1` — and the whole batch's record count
is added to the succeeded counter, missing entries included; nothing is added
to the failed counter. -/
theorem c4_amended_partial_result :
    (∀ (oracle : Nat → List Json → RemoteOutcome) (i : Nat)
        (batch : List (List Nat)) (payload : List Json) (st : RunState)
        (v : Json),
        oracle st.calls payload = .ok v →
        (∀ r ∈ toResults v, r ≠ .null ∧ r ≠ .undefined) →
        attemptLoop oracle i batch payload 3 st
          = { st with delays := st.delays ++ (if 0 < i then [2000] else []),
                      calls := st.calls + 1,
                      doc := reconcile batch st.doc (toResults v),
                      success := st.success + batch.length }) ∧
    (∀ (batch : List (List Nat)) (doc : Json) (r : Json),
        (¬ ∃ k : Int, getField r "_index" = some (.num k) ∧ 0 ≤ k
            ∧ k.toNat < batch.length) →
        reconcileOne batch doc r = doc) ∧
    (∀ (doc : Json) (batch : List (List Nat)) (j : Nat), j < batch.length →
        ∃ e, (mkPayload doc 0 batch)[j]? = some e ∧
          getField e "_index" = some (.num j)) := by
  refine ⟨?_, reconcileOne_invalid, ?_⟩
  · intro oracle i batch payload st v h hok
    exact attemptLoop_firstOk oracle i batch payload st v _ h
      (reconcileE_ok batch (toResults v) st.doc hok)
  · intro doc batch j hj
    obtain ⟨e, he, hidx⟩ := mkPayload_indices doc batch 0 j hj
    exact ⟨e, he, by simpa using hidx⟩

/-- Witness for the amended C4 on a concrete two-record batch with a
one-entry result. -/
theorem c4_amended_partial_result_witness :
    attemptLoop (fun _ _ => .ok (.arr [resEntry 0 "A" "B"])) 0 [[0], [1]] [] 3
        ⟨.arr [recNode "a" "b", recNode "c" "d"], 0, 0, 0, [], []⟩
      = { (⟨.arr [recNode "a" "b", recNode "c" "d"], 0, 0, 0, [], []⟩ : RunState)
            with
          delays := [] ++ (if 0 < 0 then [2000] else []), calls := 0 + 1,
          doc := reconcile [[0], [1]] (.arr [recNode "a" "b", recNode "c" "d"])
            (toResults (.arr [resEntry 0 "A" "B"])),
          success := 0 + 2 } ∧
    reconcileOne [[0], [1]] (.arr [recNode "a" "b", recNode "c" "d"])
        (resEntry 5 "Z" "W")
      = .arr [recNode "a" "b", recNode "c" "d"] :=
  ⟨c4_amended_partial_result.1 (fun _ _ => .ok (.arr [resEntry 0 "A" "B"])) 0
      [[0], [1]] [] _ (.arr [resEntry 0 "A" "B"]) rfl
      (by intro r hr
          simp only [toResults, List.mem_singleton] at hr
          subst hr
          exact ⟨by simp [resEntry], by simp [resEntry]⟩),
   c4_amended_partial_result.2.1 [[0], [1]] _ (resEntry 5 "Z" "W")
     (by rintro ⟨k, hk, -, hlt⟩
         simp [resEntry, getField, lookupField] at hk
         subst hk
         simp at hlt)⟩

/-- Claim C5 counterexample: a failure of the kind the spec classifies as
`Fatal` (a malformed-request error, never rate-limited) does NOT short-circuit
the retry loop: the concrete run makes all three calls and takes two backoff
delays of 2000 ms, where the claim predicts one call and no delay. -/
theorem c5_fatal_counterexample :
    (runKB (.arr [recNode "a" "b"])
        (fun _ _ => .fail "400 INVALID_ARGUMENT: malformed request")).calls
      = 3 ∧
    (runKB (.arr [recNode "a" "b"])
        (fun _ _ => .fail "400 INVALID_ARGUMENT: malformed request")).delays
      = [2000, 2000] ∧
    ¬ ((runKB (.arr [recNode "a" "b"])
          (fun _ _ => .fail "400 INVALID_ARGUMENT: malformed request")).calls
            = 1 ∧
       (runKB (.arr [recNode "a" "b"])
          (fun _ _ => .fail "400 INVALID_ARGUMENT: malformed request")).delays
            = []) :=
  ⟨rfl, rfl, by decide⟩

/-- Claim C5 (amended): there is no `Fatal` short-circuit — every failure,
whatever its message, consumes retry budget with a backoff delay before each
re-attempt, and a batch reaches its permanent failure only after all three
attempts fail (three calls, two backoff waits). -/
theorem c5_amended_no_short_circuit (oracle : Nat → List Json → RemoteOutcome)
    (i : Nat) (batch : List (List Nat)) (payload : List Json) (st : RunState)
    (m0 m1 m2 : String)
    (h0 : oracle st.calls payload = .fail m0)
    (h1 : oracle (st.calls + 1) payload = .fail m1)
    (h2 : oracle (st.calls + 2) payload = .fail m2) :
    (attemptLoop oracle i batch payload 3 st).calls = st.calls + 3 ∧
    (attemptLoop oracle i batch payload 3 st).failed
      = st.failed + batch.length ∧
    (attemptLoop oracle i batch payload 3 st).delays
      = st.delays ++ (if 0 < i then [2000] else [])
          ++ [if isRateLimit (convMsg m0) then 10000 else 2000]
          ++ (if 0 < i then [2000] else [])
          ++ [if isRateLimit (convMsg m1) then 15000 else 2000]
          ++ (if 0 < i then [2000] else []) := by
  rw [attemptLoop_threeFails oracle i batch payload st m0 m1 m2 h0 h1 h2]
  exact ⟨rfl, rfl, rfl⟩

/-- Witness for the amended C5 on a concrete never-rate-limited failure. -/
theorem c5_amended_no_short_circuit_witness :
    (attemptLoop (fun _ _ => .fail "bad request") 0 [[0]] [] 3
        ⟨.arr [recNode "a" "b"], 0, 0, 0, [], []⟩).calls = 0 + 3 ∧
    (attemptLoop (fun _ _ => .fail "bad request") 0 [[0]] [] 3
        ⟨.arr [recNode "a" "b"], 0, 0, 0, [], []⟩).failed = 0 + 1 :=
  ⟨(c5_amended_no_short_circuit (fun _ _ => .fail "bad request") 0 [[0]] [] _
      "bad request" "bad request" "bad request" rfl rfl rfl).1,
   (c5_amended_no_short_circuit (fun _ _ => .fail "bad request") 0 [[0]] [] _
      "bad request" "bad request" "bad request" rfl rfl rfl).2.1⟩

/-- Claim C6 counterexample: backoff does not double a base delay per retry —
two consecutive rate-limited failures produce waits of 10000 then 15000 ms
(linear multiples of 5000, not a doubling, since 15000 ≠ 2·10000), and two
transient failures produce constant waits 2000 then 2000, which do not grow
with the attempt number at all. -/
theorem c6_backoff_counterexample :
    (runKB (.arr [recNode "a" "b"])
        (fun _ _ => .fail "429 RESOURCE_EXHAUSTED")).delays
      = [10000, 15000] ∧
    ¬ (15000 : Nat) = 2 * 10000 ∧
    (runKB (.arr [recNode "a" "b"])
        (fun _ _ => .fail "network hiccup")).delays = [2000, 2000] ∧
    ¬ (2000 : Nat) < 2000 :=
  ⟨rfl, by decide, rfl, by decide⟩

/-- Claim C6 (amended): failures are retried within a budget of 3 attempts
total with a backoff wait before each re-attempt; rate-limited failures wait
`5000·(attempt+1)` ms — 10000 then 15000, growing linearly — while other
(transient) failures wait a constant 2000 ms; the rate-limited waits exceed
the transient wait. -/
theorem c6_amended_backoff_policy :
    (∀ (oracle : Nat → List Json → RemoteOutcome) (i : Nat)
        (batch : List (List Nat)) (payload : List Json) (st : RunState)
        (m0 m1 m2 : String),
        oracle st.calls payload = .fail m0 →
        oracle (st.calls + 1) payload = .fail m1 →
        oracle (st.calls + 2) payload = .fail m2 →
        isRateLimit (convMsg m0) = true → isRateLimit (convMsg m1) = true →
        (attemptLoop oracle i batch payload 3 st).calls = st.calls + 3 ∧
        (attemptLoop oracle i batch payload 3 st).delays
          = st.delays ++ (if 0 < i then [2000] else []) ++ [10000]
              ++ (if 0 < i then [2000] else []) ++ [15000]
              ++ (if 0 < i then [2000] else [])) ∧
    (∀ (oracle : Nat → List Json → RemoteOutcome) (i : Nat)
        (batch : List (List Nat)) (payload : List Json) (st : RunState)
        (m0 m1 m2 : String),
        oracle st.calls payload = .fail m0 →
        oracle (st.calls + 1) payload = .fail m1 →
        oracle (st.calls + 2) payload = .fail m2 →
        isRateLimit (convMsg m0) = false → isRateLimit (convMsg m1) = false →
        (attemptLoop oracle i batch payload 3 st).delays
          = st.delays ++ (if 0 < i then [2000] else []) ++ [2000]
              ++ (if 0 < i then [2000] else []) ++ [2000]
              ++ (if 0 < i then [2000] else [])) ∧
    ((2000 : Nat) < 10000 ∧ (10000 : Nat) < 15000) := by
  refine ⟨?_, ?_, by omega, by omega⟩
  · intro oracle i batch payload st m0 m1 m2 h0 h1 h2 hr0 hr1
    rw [attemptLoop_threeFails oracle i batch payload st m0 m1 m2 h0 h1 h2]
    rw [hr0, hr1]
    exact ⟨rfl, by simp⟩
  · intro oracle i batch payload st m0 m1 m2 h0 h1 h2 hr0 hr1
    rw [attemptLoop_threeFails oracle i batch payload st m0 m1 m2 h0 h1 h2]
    rw [hr0, hr1]
    simp

/-- Witness for the amended C6: a concrete rate-limited run and a concrete
transient run. -/
theorem c6_amended_backoff_policy_witness :
    (attemptLoop (fun _ _ => .fail "429 RESOURCE_EXHAUSTED") 0 [[0]] [] 3
        ⟨.arr [recNode "a" "b"], 0, 0, 0, [], []⟩).delays
      = [] ++ (if 0 < 0 then [2000] else []) ++ [10000]
          ++ (if 0 < 0 then [2000] else []) ++ [15000]
          ++ (if 0 < 0 then [2000] else []) ∧
    (attemptLoop (fun _ _ => .fail "network hiccup") 0 [[0]] [] 3
        ⟨.arr [recNode "a" "b"], 0, 0, 0, [], []⟩).delays
      = [] ++ (if 0 < 0 then [2000] else []) ++ [2000]
          ++ (if 0 < 0 then [2000] else []) ++ [2000]
          ++ (if 0 < 0 then [2000] else []) :=
  ⟨(c6_amended_backoff_policy.1 (fun _ _ => .fail "429 RESOURCE_EXHAUSTED") 0
      [[0]] [] _ "429 RESOURCE_EXHAUSTED" "429 RESOURCE_EXHAUSTED"
      "429 RESOURCE_EXHAUSTED" rfl rfl rfl (by decide) (by decide)).2,
   c6_amended_backoff_policy.2.1 (fun _ _ => .fail "network hiccup") 0
      [[0]] [] _ "network hiccup" "network hiccup" "network hiccup"
      rfl rfl rfl (by decide) (by decide)⟩

end KB
